import Mathlib

/-!
Verification development for the KruGoZor frame-compositing pipeline
(`KruGoZor_11_5.py`).  The Python source is shallowly embedded:

* machine integers become `ℕ`/`ℤ` with the numpy dtype wrap-arounds
  written as explicit `% 2^w` where the source casts dtypes;
* numpy per-pixel array operations become pointwise functions
  `ℕ → ℕ → α` over row/column indices;
* OpenCV library calls (`cv2.resize`, `cv2.GaussianBlur`,
  `cv2.cvtColor`) are external to the repository; they are modelled
  parametrically: `resize` as any function honouring its output-size
  contract, Gaussian blur as a separable convolution with an arbitrary
  1-D kernel (the Gaussian coefficients of OpenCV are nonnegative, which
  is the only fact the theorems assume), colour conversion as an
  arbitrary per-pixel map;
* Python floats are modelled by exact rationals; in every expression
  modelled here the float computation of the source is exact or the
  comparison it feeds is insensitive to the rounding error (noted at
  each definition);
* fallible operations (`cv2.resize` on an empty source or target size
  raises) return `Option`.
-/

namespace KruGoZor

/-- Source `clamp(v, lo, hi) = max(lo, min(hi, v))` (module level). -/
def clamp (v lo hi : ℤ) : ℤ := max lo (min hi v)

/-- The crop-rect clamping performed in `on_tick`:
`x2 = clamp(x, 0, fw - 1); y2 = clamp(y, 0, fh - 1);
 w2 = clamp(w, 1, fw - x2); h2 = clamp(h, 1, fh - y2)`
where `fw = src.shape[1]`, `fh = src.shape[0]`.
Returns `(x2, y2, w2, h2)`. -/
def clampRect (fw fh x y w h : ℤ) : ℤ × ℤ × ℤ × ℤ :=
  let x2 := clamp x 0 (fw - 1)
  let y2 := clamp y 0 (fh - 1)
  let w2 := clamp w 1 (fw - x2)
  let h2 := clamp h 1 (fh - y2)
  (x2, y2, w2, h2)

/-- The whole crop step of `on_tick`: the sub-rectangle of the source
frame that becomes `src` for the rest of the tick.
`if self.crop.enabled and self.crop.rect:` — `crop.rect` is either
`None` or a 4-tuple (a non-empty tuple is truthy), so the guard is
`enabled && rect.isSome`; when the guard fails the full frame
`(0, 0, fw, fh)` is used. -/
def cropStep (fw fh : ℤ) (enabled : Bool) (rect : Option (ℤ × ℤ × ℤ × ℤ)) :
    ℤ × ℤ × ℤ × ℤ :=
  match enabled, rect with
  | true, some (x, y, w, h) => clampRect fw fh x y w h
  | _, _ => (0, 0, fw, fh)

/-- The per-pixel alpha composition of `on_tick`:
`(alpha.astype(np.uint16) * shape_mask.astype(np.uint16) // 255).astype(np.uint8)`.
Inputs are `uint8` samples; the `uint16` product wraps at `2^16` and the
final `uint8` cast wraps at `2^8` (both wraps written out explicitly). -/
def finalAlpha (a s : ℕ) : ℕ := a * s % 65536 / 255 % 256

/-- Source `scale_circle`:
`d = clamp(self.state.circle_diameter + (20 * direction), 120, 1080)`,
then `circle_diameter = int(d)` (already an integer). -/
def scale_circle (d direction : ℤ) : ℤ := clamp (d + 20 * direction) 120 1080

/-- A numpy image: height `h`, width `w`, and a total pixel map
(row, column) ↦ 3-channel sample; indices outside `[0, h) × [0, w)`
carry junk values that no theorem depends on. -/
structure Image where
  w : ℕ
  h : ℕ
  pix : ℕ → ℕ → ℕ × ℕ × ℕ

/-- A concrete instance of the `cv2.resize` contract (used by witnesses):
nearest-neighbour sampling to the requested size. -/
def resizeNN (img : Image) (nw nh : ℕ) : Image :=
  ⟨nw, nh, fun i j => img.pix (i * img.h / nh) (j * img.w / nw)⟩

/-- Source `center_crop_fit(rgb, W, H)`.  `scale = max(W / w, H / h)` is a
Python float, exact here as a rational (the output-size guarantee below is
insensitive to its rounding: the final padding branch forces W×H);
`nw, nh = int(ceil(w * scale)), int(ceil(h * scale))`; `cv2.resize` is the
`resize` parameter and raises (`none`) on an empty source or target size;
then `x = max(0, (nw - W) // 2)` (Python floor division = `Int.fdiv`),
`x2 = min(nw, x + W)` and likewise for `y`; the slice `rs[y:y2, x:x2]` is
zero-padded at the bottom/right to W×H when its shape falls short. -/
def center_crop_fit (resize : Image → ℕ → ℕ → Image) (img : Image) (W H : ℕ) :
    Option Image :=
  if img.w = 0 ∨ img.h = 0 then none
  else
    let scale : ℚ := max ((W : ℚ) / img.w) ((H : ℚ) / img.h)
    let nw : ℕ := ⌈(img.w : ℚ) * scale⌉.toNat
    let nh : ℕ := ⌈(img.h : ℚ) * scale⌉.toNat
    if nw = 0 ∨ nh = 0 then none
    else
      let rs := resize img nw nh
      let x : ℕ := (max 0 (((nw : ℤ) - W).fdiv 2)).toNat
      let y : ℕ := (max 0 (((nh : ℤ) - H).fdiv 2)).toNat
      let x2 : ℕ := min nw (x + W)
      let y2 : ℕ := min nh (y + H)
      let out : Image := ⟨x2 - x, y2 - y, fun i j => rs.pix (y + i) (x + j)⟩
      if out.h ≠ H ∨ out.w ≠ W then
        some ⟨W, H, fun i j => if i < out.h ∧ j < out.w then out.pix i j else (0, 0, 0)⟩
      else some out

/-- The scaled content width of `letterbox`: `nw = int(w * scale)` with
`scale = min(W / w, H / h)`; the value is nonnegative, so Python's
truncation toward zero is the floor. -/
def letterboxScaledW (img : Image) (W H : ℕ) : ℕ :=
  ⌊(img.w : ℚ) * min ((W : ℚ) / img.w) ((H : ℚ) / img.h)⌋.toNat

/-- The scaled content height of `letterbox`: `nh = int(h * scale)`. -/
def letterboxScaledH (img : Image) (W H : ℕ) : ℕ :=
  ⌊(img.h : ℚ) * min ((W : ℚ) / img.w) ((H : ℚ) / img.h)⌋.toNat

/-- Source `letterbox(rgb, W, H)`: scaled content of size `nw × nh`
(see `letterboxScaledW`/`letterboxScaledH`) is resized (`cv2.resize`
raises — `none` — on an empty source or target size) and written into a
zero-filled W×H canvas at offset `x = (W - nw) // 2`, `y = (H - nh) // 2`
(`nw ≤ W` and `nh ≤ H` always — proved below — so ℕ subtraction agrees
with Python). -/
def letterbox (resize : Image → ℕ → ℕ → Image) (img : Image) (W H : ℕ) :
    Option Image :=
  if img.w = 0 ∨ img.h = 0 then none
  else
    let nw : ℕ := letterboxScaledW img W H
    let nh : ℕ := letterboxScaledH img W H
    if nw = 0 ∨ nh = 0 then none
    else
      let resized := resize img nw nh
      let x : ℕ := (W - nw) / 2
      let y : ℕ := (H - nh) / 2
      some ⟨W, H, fun i j =>
        if y ≤ i ∧ i < y + nh ∧ x ≤ j ∧ j < x + nw then
          resized.pix (i - y) (j - x)
        else (0, 0, 0)⟩

/-- Source `circle_alpha_mask(size)` per pixel: centre `c = (size-1)/2`,
radius `r = size/2`, `mask[y, x] = 255` where
`sqrt((x-c)² + (y-c)²) <= r`, else 0.  The float values live on an exact
half-integer grid, so rationals model them exactly; the square-root test
is embedded squared (both sides nonnegative), which the claim theorem
relates back to the Euclidean distance. -/
def circle_alpha_mask (size y x : ℕ) : ℕ :=
  let c : ℚ := ((size : ℚ) - 1) / 2
  let r : ℚ := (size : ℚ) / 2
  if ((x : ℚ) - c) ^ 2 + ((y : ℚ) - c) ^ 2 ≤ r ^ 2 then 255 else 0

/-- The per-tick state touched by the frame-read handling of `on_tick`:
the consecutive-miss counter, the retained last frame
(`self.last_frame_bgr`), the displayed pixmap and the last frame sent to
the virtual camera. -/
structure TickState (F W V : Type) where
  no_frame_count : ℕ
  last_frame : Option F
  window_out : Option W
  vcam_out : Option V

/-- Source `on_tick` from the `cap.read()` result onward.  A missing
frame (`none`) increments the miss counter, logs a warning exactly at
counts 1, 10 and 50 and at every multiple of 100, and returns — touching
nothing else.  A frame resets the counter, stores the frame and runs the
rest of the tick, abstracted here as `pipeline` (the window image, plus
the virtual-camera image when that output is enabled).  Returns the new
state and whether the no-frame warning fired. -/
def on_tick {F W V : Type} (pipeline : F → W × Option V)
    (s : TickState F W V) (read : Option F) : TickState F W V × Bool :=
  match read with
  | none =>
      let c := s.no_frame_count + 1
      ({ s with no_frame_count := c },
        decide (c = 1 ∨ c = 10 ∨ c = 50 ∨ c % 100 = 0))
  | some f =>
      let out := pipeline f
      ({ no_frame_count := 0, last_frame := some f,
         window_out := some out.1,
         vcam_out := match out.2 with
           | some v => some v
           | none => s.vcam_out }, false)

/-- A float value as produced by `np.sqrt(sq).astype(np.float32)`:
either a finite value (modelled by an exact rational) or one of the IEEE
special values. -/
inductive FloatVal where
  | val (q : ℚ)
  | nan
  | posinf
  | neginf
deriving DecidableEq

/-- Source `np.nan_to_num(dist, nan=0.0, posinf=255.0, neginf=0.0)`
(per sample) in `build_alpha_mask`. -/
def nan_to_num : FloatVal → ℚ
  | .val q => q
  | .nan => 0
  | .posinf => 255
  | .neginf => 0

/-- The chroma settings read by `build_alpha_mask` (class `ChromaConfig`
fields it consumes). -/
structure ChromaCfg where
  use_hsv : Bool
  h_min : ℕ
  h_max : ℕ
  s_min : ℕ
  s_max : ℕ
  v_min : ℕ
  v_max : ℕ
  pickA : Option (ℕ × ℕ × ℕ)
  tolA : ℕ
  pickB : Option (ℕ × ℕ × ℕ)
  tolB : ℕ
  feather : ℤ

/-- Per-pixel squared colour distance.  The pixel is a BGR triple
`(b, g, r)`; the reference `pick` is an RGB triple `(r, g, b)` and the
code builds `target = [b, g, r]`.  Each difference fits in int16 and the
squared sum in int32 (at most 3·255² = 195075), so the numpy computation
is exact. -/
def distSq (px : ℕ × ℕ × ℕ) (pick : ℕ × ℕ × ℕ) : ℤ :=
  ((px.1 : ℤ) - pick.2.2) ^ 2 + ((px.2.1 : ℤ) - pick.2.1) ^ 2 +
    ((px.2.2 : ℤ) - pick.1) ^ 2

/-- One reference colour's contribution `m = (dist <= tol) * 255` to the
background mask; an unset reference is skipped (`continue`), i.e.
contributes 0, the identity of `np.maximum`.  The float test
`sqrt(distSq) <= tol` is embedded as `distSq ≤ tol²`
(see `sqrt_dist_le_tol_iff`; the float32 rounding of the square root is
far too small to cross an integer threshold at these magnitudes). -/
def refMask (img : ℕ → ℕ → ℕ × ℕ × ℕ) (pick : Option (ℕ × ℕ × ℕ)) (tol : ℕ)
    (i j : ℕ) : ℕ :=
  match pick with
  | none => 0
  | some p => if distSq (img i j) p ≤ (tol : ℤ) ^ 2 then 255 else 0

/-- The HSV branch: `cv2.inRange(hsv, lower, upper)` marks a pixel as
background (255) iff every channel lies in its inclusive range.  The
conversion `cv2.cvtColor(img, cv2.COLOR_BGR2HSV)` is an external library
call, modelled by the per-pixel map `cvt`. -/
def hsvRangeMask (cvt : ℕ × ℕ × ℕ → ℕ × ℕ × ℕ) (cfg : ChromaCfg)
    (img : ℕ → ℕ → ℕ × ℕ × ℕ) (i j : ℕ) : ℕ :=
  let c := cvt (img i j)
  if cfg.h_min ≤ c.1 ∧ c.1 ≤ cfg.h_max ∧ cfg.s_min ≤ c.2.1 ∧ c.2.1 ≤ cfg.s_max ∧
      cfg.v_min ≤ c.2.2 ∧ c.2.2 ≤ cfg.v_max then 255 else 0

/-- The raw background mask of `build_alpha_mask` before feathering:
the HSV range mask in HSV mode, otherwise the pointwise `np.maximum` of
the two reference-colour masks. -/
def chromaMask (cvt : ℕ × ℕ × ℕ → ℕ × ℕ × ℕ) (cfg : ChromaCfg)
    (img : ℕ → ℕ → ℕ × ℕ × ℕ) (i j : ℕ) : ℕ :=
  if cfg.use_hsv then hsvRangeMask cvt cfg img i j
  else max (refMask img cfg.pickA cfg.tolA i j) (refMask img cfg.pickB cfg.tolB i j)

/-- OpenCV `BORDER_REFLECT_101` index folding (the default border mode of
`cv2.GaussianBlur`): reflection without repeating the edge sample —
`... 2 1 | 0 1 2 ... n-1 | n-2 n-3 ...` — in closed form; a 1-sample
axis always maps to 0. -/
def reflect101 (n : ℕ) (p : ℤ) : ℕ :=
  if n ≤ 1 then 0
  else
    let m := p.emod (2 * ((n : ℤ) - 1))
    (if m < n then m else 2 * ((n : ℤ) - 1) - m).toNat

/-- The rounding and `saturate_cast` to `uint8` applied by the OpenCV
filter to each output sample: round half up to nearest, clamp into
[0, 255]. -/
def saturateRound (q : ℚ) : ℕ := (min 255 (max 0 ⌊q + 1 / 2⌋)).toNat

/-- Model of `cv2.GaussianBlur(mask, (k, k), 0)` on a `rows × cols`
mask: separable convolution with the 1-D kernel `g` (indexed by offset
from the centre anchor `k / 2`), `BORDER_REFLECT_101` sampling, each
output sample rounded and saturated.  The library call is external; the
theorems assume of `g` only what holds of OpenCV's Gaussian coefficients
(nonnegativity) where they need it. -/
def gaussianBlur (g : ℤ → ℚ) (k rows cols : ℕ) (mask : ℕ → ℕ → ℕ)
    (i j : ℕ) : ℕ :=
  saturateRound (∑ dy ∈ Finset.range k, ∑ dx ∈ Finset.range k,
    g ((dy : ℤ) - (k : ℤ) / 2) * g ((dx : ℤ) - (k : ℤ) / 2) *
      (mask (reflect101 rows ((i : ℤ) + (dy : ℤ) - (k : ℤ) / 2))
            (reflect101 cols ((j : ℤ) + (dx : ℤ) - (k : ℤ) / 2)) : ℚ))

/-- The feather kernel size normalization of `build_alpha_mask`:
`k = max(0, int(feather))`; an even positive `k` becomes `k + 1`, an
even non-positive one stays 0; blurring applies iff the result is ≥ 3. -/
def featherK (feather : ℤ) : ℕ :=
  let k0 := (max 0 feather).toNat
  if k0 % 2 = 0 then (if 0 < k0 then k0 + 1 else 0) else k0

/-- Source `build_alpha_mask` per pixel on a `rows × cols` frame: raw
background mask, Gaussian feathering when the normalized kernel size is
at least 3, then inversion `alpha = cv2.subtract(255, mask)` (saturating
subtraction; the mask sample is already ≤ 255, and ℕ subtraction
truncates at 0 exactly as the saturating one does). -/
def build_alpha_mask (cvt : ℕ × ℕ × ℕ → ℕ × ℕ × ℕ) (g : ℤ → ℚ)
    (cfg : ChromaCfg) (rows cols : ℕ) (img : ℕ → ℕ → ℕ × ℕ × ℕ)
    (i j : ℕ) : ℕ :=
  let k := featherK cfg.feather
  let m :=
    if 3 ≤ k then gaussianBlur g k rows cols (chromaMask cvt cfg img) i j
    else chromaMask cvt cfg img i j
  255 - m

/-- Fidelity of the squared threshold used in `refMask`: for an integer
squared distance and a natural tolerance, the source's float test
`sqrt(s) <= tol` holds exactly when `s ≤ tol²`. -/
lemma sqrt_dist_le_tol_iff (s : ℤ) (tol : ℕ) :
    Real.sqrt (s : ℝ) ≤ (tol : ℝ) ↔ s ≤ (tol : ℤ) ^ 2 := by
  rw [Real.sqrt_le_left (by positivity)]
  constructor
  · intro h; exact_mod_cast h
  · intro h; exact_mod_cast h

lemma saturateRound_mono {a b : ℚ} (h : a ≤ b) :
    saturateRound a ≤ saturateRound b := by
  unfold saturateRound
  have := Int.floor_mono (add_le_add_right h (1 / 2 : ℚ))
  omega

lemma gaussianBlur_mono (g : ℤ → ℚ) (hg : ∀ d, 0 ≤ g d) (k rows cols : ℕ)
    (m m' : ℕ → ℕ → ℕ) (hm : ∀ a b, m a b ≤ m' a b) (i j : ℕ) :
    gaussianBlur g k rows cols m i j ≤ gaussianBlur g k rows cols m' i j := by
  unfold gaussianBlur
  apply saturateRound_mono
  apply Finset.sum_le_sum
  intro dy _
  apply Finset.sum_le_sum
  intro dx _
  apply mul_le_mul_of_nonneg_left _ (mul_nonneg (hg _) (hg _))
  exact_mod_cast hm _ _

lemma refMask_mono (img : ℕ → ℕ → ℕ × ℕ × ℕ) (pick : Option (ℕ × ℕ × ℕ))
    {tol tol' : ℕ} (h : tol ≤ tol') (i j : ℕ) :
    refMask img pick tol i j ≤ refMask img pick tol' i j := by
  cases pick with
  | none => exact le_refl _
  | some p =>
    simp only [refMask]
    have hsq : (tol : ℤ) ^ 2 ≤ (tol' : ℤ) ^ 2 :=
      pow_le_pow_left₀ (by positivity) (by exact_mod_cast h) 2
    split_ifs with h1 h2
    · exact le_refl _
    · exact absurd (le_trans h1 hsq) h2
    · omega
    · exact le_refl _

lemma chromaMask_mono_tolA (cvt : ℕ × ℕ × ℕ → ℕ × ℕ × ℕ) (cfg : ChromaCfg)
    {t t' : ℕ} (h : t ≤ t') (hhsv : cfg.use_hsv = false)
    (img : ℕ → ℕ → ℕ × ℕ × ℕ) (i j : ℕ) :
    chromaMask cvt { cfg with tolA := t } img i j ≤
      chromaMask cvt { cfg with tolA := t' } img i j := by
  simp only [chromaMask, hhsv, Bool.false_eq_true, if_false]
  exact max_le_max (refMask_mono img cfg.pickA h i j) (le_refl _)

/-! ## Claims C1, C3, C4, C10 -/

/-- C1: for 8-bit `alpha` and `shapeMask` samples, the composited
`finalAlpha = alpha * shapeMask // 255` equals 255 only if both inputs
are 255, is 0 whenever either input is 0, and always lies in [0, 255]. -/
theorem finalAlpha_composition (a s : ℕ) (ha : a ≤ 255) (hs : s ≤ 255) :
    (finalAlpha a s = 255 → a = 255 ∧ s = 255) ∧
    ((a = 0 ∨ s = 0) → finalAlpha a s = 0) ∧
    finalAlpha a s ≤ 255 := by
  have hprod : a * s ≤ 255 * 255 := Nat.mul_le_mul ha hs
  have hmod : a * s % 65536 = a * s := Nat.mod_eq_of_lt (by omega)
  have hdiv : a * s / 255 ≤ 255 := Nat.div_le_of_le_mul (by omega)
  have hmod2 : a * s / 255 % 256 = a * s / 255 := Nat.mod_eq_of_lt (by omega)
  have hfa : finalAlpha a s = a * s / 255 := by
    simp only [finalAlpha, hmod, hmod2]
  refine ⟨?_, ?_, ?_⟩
  · intro h255
    rw [hfa] at h255
    have hge : 255 * 255 ≤ a * s := by
      have := Nat.le_div_iff_mul_le (k := 255) (by norm_num) |>.mp h255.ge
      omega
    constructor
    · by_contra hne
      have ha' : a ≤ 254 := by omega
      have : a * s ≤ 254 * 255 := Nat.mul_le_mul ha' hs
      omega
    · by_contra hne
      have hs' : s ≤ 254 := by omega
      have : a * s ≤ 255 * 254 := Nat.mul_le_mul ha hs'
      omega
  · rintro (rfl | rfl) <;> simp [finalAlpha]
  · rw [hfa]; exact hdiv

/-- Witness for C1 at `alpha = shapeMask = 255`. -/
theorem finalAlpha_composition_witness :
    (finalAlpha 255 255 = 255 → 255 = 255 ∧ 255 = 255) ∧
    ((255 = 0 ∨ 255 = 0) → finalAlpha 255 255 = 0) ∧
    finalAlpha 255 255 ≤ 255 :=
  finalAlpha_composition 255 255 (by decide) (by decide)

/-- C3: on a frame of positive width `fw` and height `fh`, for every
integer rect `(x, y, w, h)` the clamped rect `(x2, y2, w2, h2)` has
`x2 ≥ 0`, `y2 ≥ 0`, `w2 ≥ 1`, `h2 ≥ 1`, `x2 + w2 ≤ fw`, `y2 + h2 ≤ fh`:
the extracted sub-image is non-empty and in bounds, so the step never
fails. -/
theorem clampRect_in_bounds (fw fh x y w h : ℤ) (hfw : 1 ≤ fw) (hfh : 1 ≤ fh) :
    0 ≤ (clampRect fw fh x y w h).1 ∧
    0 ≤ (clampRect fw fh x y w h).2.1 ∧
    1 ≤ (clampRect fw fh x y w h).2.2.1 ∧
    1 ≤ (clampRect fw fh x y w h).2.2.2 ∧
    (clampRect fw fh x y w h).1 + (clampRect fw fh x y w h).2.2.1 ≤ fw ∧
    (clampRect fw fh x y w h).2.1 + (clampRect fw fh x y w h).2.2.2 ≤ fh := by
  simp only [clampRect, clamp]
  omega

/-- Witness for C3: the spec scenario, rect (1000, 1000, 50, 50) on a
640×480 frame. -/
theorem clampRect_in_bounds_witness :
    0 ≤ (clampRect 640 480 1000 1000 50 50).1 ∧
    0 ≤ (clampRect 640 480 1000 1000 50 50).2.1 ∧
    1 ≤ (clampRect 640 480 1000 1000 50 50).2.2.1 ∧
    1 ≤ (clampRect 640 480 1000 1000 50 50).2.2.2 ∧
    (clampRect 640 480 1000 1000 50 50).1 + (clampRect 640 480 1000 1000 50 50).2.2.1 ≤ 640 ∧
    (clampRect 640 480 1000 1000 50 50).2.1 + (clampRect 640 480 1000 1000 50 50).2.2.2 ≤ 480 :=
  clampRect_in_bounds 640 480 1000 1000 50 50 (by decide) (by decide)

/-- C4 counterexample: a stored rect with zero width and height, e.g.
`(10, 10, 0, 0)` on a 640×480 frame, is NOT treated as "no crop": the
step clamps it to the 1×1 sub-rect `(10, 10, 1, 1)` instead of using the
full frame `(0, 0, 640, 480)`. -/
theorem cropStep_zero_rect_not_full_frame :
    cropStep 640 480 true (some (10, 10, 0, 0)) = (10, 10, 1, 1) ∧
    cropStep 640 480 true (some (10, 10, 0, 0)) ≠ (0, 0, 640, 480) := by
  constructor
  · decide
  · decide

/-- C4 (amended): only an unset (`None`) rect — or crop disabled — is
treated as "no crop" (the tick proceeds with the full frame); a stored
rect with non-positive width or height is instead clamped to width ≥ 1
and height ≥ 1, so the tick proceeds with that (at least 1×1) crop, not
with the full frame. -/
theorem cropStep_no_crop_only_when_unset (fw fh x y w h : ℤ)
    (hfw : 1 ≤ fw) (hfh : 1 ≤ fh) :
    cropStep fw fh true none = (0, 0, fw, fh) ∧
    (∀ e : Bool, ∀ r : Option (ℤ × ℤ × ℤ × ℤ), e = false →
      cropStep fw fh e r = (0, 0, fw, fh)) ∧
    cropStep fw fh true (some (x, y, w, h)) = clampRect fw fh x y w h ∧
    1 ≤ (cropStep fw fh true (some (x, y, w, h))).2.2.1 ∧
    1 ≤ (cropStep fw fh true (some (x, y, w, h))).2.2.2 := by
  refine ⟨rfl, ?_, rfl, ?_, ?_⟩
  · rintro e r rfl; rfl
  · simp only [cropStep, clampRect, clamp]; omega
  · simp only [cropStep, clampRect, clamp]; omega

/-- Witness for C4 (amended) at the counterexample's input. -/
theorem cropStep_no_crop_only_when_unset_witness :
    cropStep 640 480 true none = (0, 0, 640, 480) ∧
    (∀ e : Bool, ∀ r : Option (ℤ × ℤ × ℤ × ℤ), e = false →
      cropStep 640 480 e r = (0, 0, 640, 480)) ∧
    cropStep 640 480 true (some (10, 10, 0, 0)) = clampRect 640 480 10 10 0 0 ∧
    1 ≤ (cropStep 640 480 true (some (10, 10, 0, 0))).2.2.1 ∧
    1 ≤ (cropStep 640 480 true (some (10, 10, 0, 0))).2.2.2 :=
  cropStep_no_crop_only_when_unset 640 480 10 10 0 0 (by decide) (by decide)

/-- C10: starting from a diameter in [120, 1080], after any sequence of
`scale_circle(±1)` calls the diameter stays in [120, 1080], and each
single call moves it by at most 20. -/
theorem scale_circle_invariant (dirs : List ℤ) (d0 : ℤ)
    (hdirs : ∀ x ∈ dirs, x = 1 ∨ x = -1)
    (hlo : 120 ≤ d0) (hhi : d0 ≤ 1080) :
    (120 ≤ dirs.foldl scale_circle d0 ∧ dirs.foldl scale_circle d0 ≤ 1080) ∧
    (∀ d dir : ℤ, 120 ≤ d → d ≤ 1080 → (dir = 1 ∨ dir = -1) →
      (scale_circle d dir - d).natAbs ≤ 20) := by
  constructor
  · induction dirs generalizing d0 with
    | nil => exact ⟨hlo, hhi⟩
    | cons a t ih =>
      refine ih (scale_circle d0 a) (fun x hx => hdirs x (List.mem_cons_of_mem a hx)) ?_ ?_
      · simp only [scale_circle, clamp]; omega
      · simp only [scale_circle, clamp]; omega
  · rintro d dir hd1 hd2 (rfl | rfl) <;>
      · simp only [scale_circle, clamp]; omega

/-- Witness for C10: the sequence +1, +1, −1 from diameter 1070. -/
theorem scale_circle_invariant_witness :
    (120 ≤ [1, 1, -1].foldl scale_circle 1070 ∧
      [1, 1, -1].foldl scale_circle 1070 ≤ 1080) ∧
    (∀ d dir : ℤ, 120 ≤ d → d ≤ 1080 → (dir = 1 ∨ dir = -1) →
      (scale_circle d dir - d).natAbs ≤ 20) :=
  scale_circle_invariant [1, 1, -1] 1070 (by decide) (by decide) (by decide)

/-- A concrete 400×400 image (the spec's letterbox scenario input). -/
def imgSquare400 : Image := ⟨400, 400, fun _ _ => (128, 128, 128)⟩

/-- A concrete 200×1 image: positive width and height, but so wide that
letterboxing it into 100×100 scales its height to zero pixels. -/
def img200x1 : Image := ⟨200, 1, fun _ _ => (0, 0, 0)⟩

lemma letterboxScaledH_img200x1 : letterboxScaledH img200x1 100 100 = 0 := by
  simp only [letterboxScaledH, img200x1]
  norm_num [min_def]

lemma letterboxScaledW_img400 : letterboxScaledW imgSquare400 1920 1080 = 1080 := by
  simp only [letterboxScaledW, imgSquare400]
  norm_num [min_def]
  rfl

lemma letterboxScaledH_img400 : letterboxScaledH imgSquare400 1920 1080 = 1080 := by
  simp only [letterboxScaledH, imgSquare400]
  norm_num [min_def]
  rfl

/-- C2 counterexample: on the 200×1 input (positive width and height)
with target 100×100, the scaled content height `int(1 * min(100/200,
100/1)) = 0` is empty, `cv2.resize` raises, and `letterbox` produces no
buffer at all — not a 100×100 buffer as claimed. -/
theorem letterbox_degenerate_counterexample :
    (letterbox resizeNN img200x1 100 100).isNone = true := by
  simp only [letterbox]
  rw [if_neg (by simp [img200x1]), if_pos (Or.inr letterboxScaledH_img200x1)]
  rfl

/-- C2 (amended): for every positive-size input and positive target W×H,
`center_crop_fit` returns a buffer of exactly W×H (padding any shortfall
at the bottom/right); `letterbox` returns a buffer of exactly W×H —
every pixel outside the scaled content rectangle exactly zero and the
content centered within 1 pixel per axis — whenever the scaled content
dimensions round to at least 1 pixel each (when either rounds to 0 the
resize step fails and no buffer is produced, as the counterexample
shows). -/
theorem fit_ops_exact_size (resize : Image → ℕ → ℕ → Image)
    (img : Image) (W H : ℕ)
    (hw : 0 < img.w) (hh : 0 < img.h) (hW : 0 < W) (hH : 0 < H) :
    (∃ out, center_crop_fit resize img W H = some out ∧ out.w = W ∧ out.h = H) ∧
    (1 ≤ letterboxScaledW img W H → 1 ≤ letterboxScaledH img W H →
      ∃ out, letterbox resize img W H = some out ∧ out.w = W ∧ out.h = H ∧
        letterboxScaledW img W H ≤ W ∧ letterboxScaledH img W H ≤ H ∧
        (∀ i j : ℕ,
          ¬((H - letterboxScaledH img W H) / 2 ≤ i ∧
            i < (H - letterboxScaledH img W H) / 2 + letterboxScaledH img W H ∧
            (W - letterboxScaledW img W H) / 2 ≤ j ∧
            j < (W - letterboxScaledW img W H) / 2 + letterboxScaledW img W H) →
          out.pix i j = (0, 0, 0)) ∧
        (W - letterboxScaledW img W H) / 2 ≤
          (W - letterboxScaledW img W H - (W - letterboxScaledW img W H) / 2) + 1 ∧
        (W - letterboxScaledW img W H - (W - letterboxScaledW img W H) / 2) ≤
          (W - letterboxScaledW img W H) / 2 + 1 ∧
        (H - letterboxScaledH img W H) / 2 ≤
          (H - letterboxScaledH img W H - (H - letterboxScaledH img W H) / 2) + 1 ∧
        (H - letterboxScaledH img W H - (H - letterboxScaledH img W H) / 2) ≤
          (H - letterboxScaledH img W H) / 2 + 1) := by
  have hwQ : (0 : ℚ) < (img.w : ℚ) := by exact_mod_cast hw
  have hhQ : (0 : ℚ) < (img.h : ℚ) := by exact_mod_cast hh
  constructor
  · -- center_crop_fit always yields exactly W×H
    simp only [center_crop_fit]
    rw [if_neg (by omega)]
    have hWle : (W : ℚ) ≤ (img.w : ℚ) * max ((W : ℚ) / img.w) ((H : ℚ) / img.h) := by
      calc (W : ℚ) = (img.w : ℚ) * ((W : ℚ) / img.w) := by
            field_simp
        _ ≤ _ := mul_le_mul_of_nonneg_left (le_max_left _ _) hwQ.le
    have hHle : (H : ℚ) ≤ (img.h : ℚ) * max ((W : ℚ) / img.w) ((H : ℚ) / img.h) := by
      calc (H : ℚ) = (img.h : ℚ) * ((H : ℚ) / img.h) := by
            field_simp
        _ ≤ _ := mul_le_mul_of_nonneg_left (le_max_right _ _) hhQ.le
    have hnw : (W : ℤ) ≤ ⌈(img.w : ℚ) * max ((W : ℚ) / img.w) ((H : ℚ) / img.h)⌉ := by
      have := Int.ceil_mono hWle
      rwa [Int.ceil_natCast] at this
    have hnh : (H : ℤ) ≤ ⌈(img.h : ℚ) * max ((W : ℚ) / img.w) ((H : ℚ) / img.h)⌉ := by
      have := Int.ceil_mono hHle
      rwa [Int.ceil_natCast] at this
    rw [if_neg (by omega)]
    split_ifs with hpad
    · exact ⟨_, rfl, rfl, rfl⟩
    · push_neg at hpad
      exact ⟨_, rfl, hpad.2, hpad.1⟩
  · -- letterbox, when the scaled content is non-empty
    intro hnw1 hnh1
    have hnwle : letterboxScaledW img W H ≤ W := by
      have h1 : (img.w : ℚ) * min ((W : ℚ) / img.w) ((H : ℚ) / img.h) ≤ (W : ℚ) := by
        calc (img.w : ℚ) * min ((W : ℚ) / img.w) ((H : ℚ) / img.h)
            ≤ (img.w : ℚ) * ((W : ℚ) / img.w) :=
              mul_le_mul_of_nonneg_left (min_le_left _ _) hwQ.le
          _ = (W : ℚ) := by field_simp
      have h2 := Int.floor_mono h1
      rw [Int.floor_natCast] at h2
      simp only [letterboxScaledW]
      omega
    have hnhle : letterboxScaledH img W H ≤ H := by
      have h1 : (img.h : ℚ) * min ((W : ℚ) / img.w) ((H : ℚ) / img.h) ≤ (H : ℚ) := by
        calc (img.h : ℚ) * min ((W : ℚ) / img.w) ((H : ℚ) / img.h)
            ≤ (img.h : ℚ) * ((H : ℚ) / img.h) :=
              mul_le_mul_of_nonneg_left (min_le_right _ _) hhQ.le
          _ = (H : ℚ) := by field_simp
      have h2 := Int.floor_mono h1
      rw [Int.floor_natCast] at h2
      simp only [letterboxScaledH]
      omega
    simp only [letterbox]
    rw [if_neg (by omega), if_neg (by omega)]
    refine ⟨_, rfl, rfl, rfl, hnwle, hnhle, ?_, by omega, by omega, by omega, by omega⟩
    intro i j hout
    exact if_neg hout

/-- Witness for C2 (amended): the spec's scenario — a 400×400 input
letterboxed to 1920×1080 (content 1080×1080, 420-pixel side bars). -/
theorem fit_ops_exact_size_witness :
    (∃ out, center_crop_fit resizeNN imgSquare400 1920 1080 = some out ∧
      out.w = 1920 ∧ out.h = 1080) ∧
    (∃ out, letterbox resizeNN imgSquare400 1920 1080 = some out ∧
      out.w = 1920 ∧ out.h = 1080 ∧
      letterboxScaledW imgSquare400 1920 1080 ≤ 1920 ∧
      letterboxScaledH imgSquare400 1920 1080 ≤ 1080 ∧
      (∀ i j : ℕ,
        ¬((1080 - letterboxScaledH imgSquare400 1920 1080) / 2 ≤ i ∧
          i < (1080 - letterboxScaledH imgSquare400 1920 1080) / 2 +
            letterboxScaledH imgSquare400 1920 1080 ∧
          (1920 - letterboxScaledW imgSquare400 1920 1080) / 2 ≤ j ∧
          j < (1920 - letterboxScaledW imgSquare400 1920 1080) / 2 +
            letterboxScaledW imgSquare400 1920 1080) →
        out.pix i j = (0, 0, 0)) ∧
      (1920 - letterboxScaledW imgSquare400 1920 1080) / 2 ≤
        (1920 - letterboxScaledW imgSquare400 1920 1080 -
          (1920 - letterboxScaledW imgSquare400 1920 1080) / 2) + 1 ∧
      (1920 - letterboxScaledW imgSquare400 1920 1080 -
        (1920 - letterboxScaledW imgSquare400 1920 1080) / 2) ≤
        (1920 - letterboxScaledW imgSquare400 1920 1080) / 2 + 1 ∧
      (1080 - letterboxScaledH imgSquare400 1920 1080) / 2 ≤
        (1080 - letterboxScaledH imgSquare400 1920 1080 -
          (1080 - letterboxScaledH imgSquare400 1920 1080) / 2) + 1 ∧
      (1080 - letterboxScaledH imgSquare400 1920 1080 -
        (1080 - letterboxScaledH imgSquare400 1920 1080) / 2) ≤
        (1080 - letterboxScaledH imgSquare400 1920 1080) / 2 + 1) :=
  ⟨(fit_ops_exact_size resizeNN imgSquare400 1920 1080
      (by decide) (by decide) (by decide) (by decide)).1,
   (fit_ops_exact_size resizeNN imgSquare400 1920 1080
      (by decide) (by decide) (by decide) (by decide)).2
      (by rw [letterboxScaledW_img400]; norm_num)
      (by rw [letterboxScaledH_img400]; norm_num)⟩

/-- C5 counterexample: the sanitization maps a +Inf distance to 255.0
(not to 0 as claimed), and with tolerance 10 the sanitized value fails
`dist <= tol`, so such a pixel IS excluded from background matching. -/
theorem nan_to_num_posinf_not_zero :
    nan_to_num FloatVal.posinf ≠ 0 ∧ ¬ nan_to_num FloatVal.posinf ≤ (10 : ℚ) := by
  constructor <;> norm_num [nan_to_num]

/-- C5 (amended): the sanitization replaces NaN and −Inf by distance 0
(such pixels always pass any tolerance test and are never excluded),
but replaces +Inf by 255, so a +Inf distance pixel is excluded from
background matching whenever the tolerance is below 255; every sanitized
value is a finite rational, so no error propagates to the threshold. -/
theorem nan_to_num_sanitizes :
    nan_to_num FloatVal.nan = 0 ∧ nan_to_num FloatVal.neginf = 0 ∧
    nan_to_num FloatVal.posinf = 255 ∧
    (∀ tol : ℚ, 0 ≤ tol → nan_to_num FloatVal.nan ≤ tol ∧
      nan_to_num FloatVal.neginf ≤ tol) ∧
    (∀ tol : ℚ, tol < 255 → ¬ nan_to_num FloatVal.posinf ≤ tol) := by
  refine ⟨rfl, rfl, rfl, ?_, ?_⟩
  · intro tol h
    exact ⟨h, h⟩
  · intro tol h
    simp only [nan_to_num]
    exact not_le.mpr h

/-- Witness for C5 (amended) at tolerance 10. -/
theorem nan_to_num_sanitizes_witness :
    (nan_to_num FloatVal.nan ≤ (10 : ℚ) ∧ nan_to_num FloatVal.neginf ≤ (10 : ℚ)) ∧
    ¬ nan_to_num FloatVal.posinf ≤ (10 : ℚ) :=
  ⟨nan_to_num_sanitizes.2.2.2.1 10 (by norm_num),
   nan_to_num_sanitizes.2.2.2.2 10 (by norm_num)⟩

/-- C9: with chroma keying in reference-colour mode and both reference
colours unset, the alpha mask is all 255 for every frame, every feather
setting and every blur kernel: no pixel is keyed out. -/
theorem build_alpha_mask_all_opaque (cvt : ℕ × ℕ × ℕ → ℕ × ℕ × ℕ)
    (g : ℤ → ℚ) (cfg : ChromaCfg) (rows cols : ℕ)
    (img : ℕ → ℕ → ℕ × ℕ × ℕ) (i j : ℕ) (hhsv : cfg.use_hsv = false)
    (hA : cfg.pickA = none) (hB : cfg.pickB = none) :
    build_alpha_mask cvt g cfg rows cols img i j = 255 := by
  have hmask : ∀ a b : ℕ, chromaMask cvt cfg img a b = 0 := by
    intro a b
    simp [chromaMask, hhsv, hA, hB, refMask]
  have hround0 : saturateRound 0 = 0 := by
    unfold saturateRound
    norm_num
  have hblur0 : ∀ k, gaussianBlur g k rows cols (chromaMask cvt cfg img) i j = 0 := by
    intro k
    simp [gaussianBlur, hmask, hround0]
  simp only [build_alpha_mask]
  split_ifs with hk
  · rw [hblur0]
  · rw [hmask]

/-- Witness for C9: a concrete 2×2 frame, feather 3, both picks unset. -/
theorem build_alpha_mask_all_opaque_witness :
    build_alpha_mask (fun p => p) (fun _ => 0)
      { use_hsv := false, h_min := 0, h_max := 179, s_min := 0, s_max := 255,
        v_min := 0, v_max := 255, pickA := none, tolA := 10,
        pickB := none, tolB := 10, feather := 3 } 2 2
      (fun _ _ => (0, 255, 0)) 0 0 = 255 :=
  build_alpha_mask_all_opaque (fun p => p) (fun _ => 0)
    { use_hsv := false, h_min := 0, h_max := 179, s_min := 0, s_max := 255,
      v_min := 0, v_max := 255, pickA := none, tolA := 10,
      pickB := none, tolB := 10, feather := 3 } 2 2
    (fun _ _ => (0, 255, 0)) 0 0 rfl rfl rfl

/-- C6: with `use_hsv = false` and `tolA ≤ tolA'`, the background region
computed with `tolA'` pointwise dominates the one computed with `tolA`,
and the resulting alpha mask — after the feathering step, whatever the
(nonnegative) blur kernel — is pointwise non-increasing in `tolA`. -/
theorem alpha_mono_in_tolA (cvt : ℕ × ℕ × ℕ → ℕ × ℕ × ℕ) (g : ℤ → ℚ)
    (hg : ∀ d, 0 ≤ g d) (cfg : ChromaCfg) (t t' : ℕ) (htol : t ≤ t')
    (hhsv : cfg.use_hsv = false) (rows cols : ℕ)
    (img : ℕ → ℕ → ℕ × ℕ × ℕ) (i j : ℕ) :
    chromaMask cvt { cfg with tolA := t } img i j ≤
      chromaMask cvt { cfg with tolA := t' } img i j ∧
    build_alpha_mask cvt g { cfg with tolA := t' } rows cols img i j ≤
      build_alpha_mask cvt g { cfg with tolA := t } rows cols img i j := by
  have hmono : ∀ a b : ℕ, chromaMask cvt { cfg with tolA := t } img a b ≤
      chromaMask cvt { cfg with tolA := t' } img a b :=
    fun a b => chromaMask_mono_tolA cvt cfg htol hhsv img a b
  refine ⟨hmono i j, ?_⟩
  simp only [build_alpha_mask]
  split_ifs with hk
  · exact Nat.sub_le_sub_left
      (gaussianBlur_mono g hg _ rows cols _ _ hmono i j) 255
  · exact Nat.sub_le_sub_left (hmono i j) 255

/-- OpenCV's fixed 3-tap Gaussian kernel `getGaussianKernel(3, 0)`:
coefficients (1/4, 1/2, 1/4); used by the C6 witness. -/
def gauss3 : ℤ → ℚ :=
  fun d => if d = 0 then 1 / 2 else if d = 1 ∨ d = -1 then 1 / 4 else 0

lemma gauss3_nonneg : ∀ d, 0 ≤ gauss3 d := by
  intro d
  unfold gauss3
  split_ifs <;> norm_num

/-- Chroma settings used by the C6 witness: reference-colour mode,
`pickA` green, feather 3. -/
def cfgPickGreen : ChromaCfg :=
  { use_hsv := false, h_min := 40, h_max := 80, s_min := 70, s_max := 255,
    v_min := 70, v_max := 255, pickA := some (0, 255, 0), tolA := 0,
    pickB := none, tolB := 0, feather := 3 }

/-- Witness for C6: tolerances 5 ≤ 10 on a solid green 2×2 frame with
feathering by the 3-tap Gaussian kernel. -/
theorem alpha_mono_in_tolA_witness :
    chromaMask (fun p => p) { cfgPickGreen with tolA := 5 }
        (fun _ _ => (0, 255, 0)) 0 0 ≤
      chromaMask (fun p => p) { cfgPickGreen with tolA := 10 }
        (fun _ _ => (0, 255, 0)) 0 0 ∧
    build_alpha_mask (fun p => p) gauss3 { cfgPickGreen with tolA := 10 } 2 2
        (fun _ _ => (0, 255, 0)) 0 0 ≤
      build_alpha_mask (fun p => p) gauss3 { cfgPickGreen with tolA := 5 } 2 2
        (fun _ _ => (0, 255, 0)) 0 0 :=
  alpha_mono_in_tolA (fun p => p) gauss3 gauss3_nonneg cfgPickGreen 5 10
    (by decide) rfl 2 2 (fun _ _ => (0, 255, 0)) 0 0

/-- C7: the circular shape mask sample at `(y, x)` is 255 exactly when
the Euclidean distance from `(x, y)` to the centre
`((size−1)/2, (size−1)/2)` is at most `size/2`, and is 0 otherwise. -/
theorem circle_alpha_mask_spec (size y x : ℕ) :
    (circle_alpha_mask size y x = 255 ↔
      Real.sqrt (((x : ℝ) - ((size : ℝ) - 1) / 2) ^ 2 +
          ((y : ℝ) - ((size : ℝ) - 1) / 2) ^ 2) ≤ (size : ℝ) / 2) ∧
    (¬ Real.sqrt (((x : ℝ) - ((size : ℝ) - 1) / 2) ^ 2 +
          ((y : ℝ) - ((size : ℝ) - 1) / 2) ^ 2) ≤ (size : ℝ) / 2 →
      circle_alpha_mask size y x = 0) := by
  have key : Real.sqrt (((x : ℝ) - ((size : ℝ) - 1) / 2) ^ 2 +
      ((y : ℝ) - ((size : ℝ) - 1) / 2) ^ 2) ≤ (size : ℝ) / 2 ↔
      ((x : ℚ) - ((size : ℚ) - 1) / 2) ^ 2 +
        ((y : ℚ) - ((size : ℚ) - 1) / 2) ^ 2 ≤ ((size : ℚ) / 2) ^ 2 := by
    rw [Real.sqrt_le_left (by positivity),
      show (((x : ℝ) - ((size : ℝ) - 1) / 2) ^ 2 +
          ((y : ℝ) - ((size : ℝ) - 1) / 2) ^ 2) =
        ((((x : ℚ) - ((size : ℚ) - 1) / 2) ^ 2 +
          ((y : ℚ) - ((size : ℚ) - 1) / 2) ^ 2 : ℚ) : ℝ) by push_cast; ring,
      show ((size : ℝ) / 2) ^ 2 = ((((size : ℚ) / 2) ^ 2 : ℚ) : ℝ) by
        push_cast; ring,
      Rat.cast_le]
  simp only [circle_alpha_mask]
  rw [key]
  constructor
  · split_ifs with h
    · exact iff_of_true rfl h
    · exact iff_of_false (by norm_num) h
  · intro hn
    rw [if_neg hn]

/-- C8: a failed frame read leaves the last-frame reference and both
outputs unchanged and increments the consecutive-miss counter; the
diagnostic fires exactly when the new count is 1, 10 or 50 or a multiple
of 100; any successful read resets the counter to 0. -/
theorem on_tick_read_failure (F W V : Type) (pipeline : F → W × Option V)
    (s : TickState F W V) :
    ((on_tick pipeline s none).1.last_frame = s.last_frame ∧
     (on_tick pipeline s none).1.window_out = s.window_out ∧
     (on_tick pipeline s none).1.vcam_out = s.vcam_out ∧
     (on_tick pipeline s none).1.no_frame_count = s.no_frame_count + 1 ∧
     ((on_tick pipeline s none).2 = true ↔
       s.no_frame_count + 1 = 1 ∨ s.no_frame_count + 1 = 10 ∨
       s.no_frame_count + 1 = 50 ∨ (s.no_frame_count + 1) % 100 = 0)) ∧
    ∀ f : F, (on_tick pipeline s (some f)).1.no_frame_count = 0 := by
  refine ⟨⟨rfl, rfl, rfl, rfl, ?_⟩, fun f => rfl⟩
  simp [on_tick]

end KruGoZor
